import Mathlib

/-!
Shallow embedding of the SMO "Manifesto Operacional" single-page app:
the backend access layer (`src/services/api.ts` and its two evolved
variants, `src/unnamed/part_000` and `src/unnamed/part_001`) and the
submission logic of the root component (`src/App.tsx`).

Modelling conventions:
* A supabase read is represented by a `FetchOutcome`: the rows the
  backend returned, a null `data` with no error, a reported error in the
  `error` field, or a thrown exception at the `await`.
* SQL NULL column values are `Option.none`.
* JavaScript's default `Array.prototype.sort()` on strings compares
  lexicographically by code unit; `strLe` models this comparison
  (code-point lexicographic, which agrees on all strings the app holds).
* `new Set(...)` insertion-order deduplication is `setDedup`;
  `.filter(Boolean)` on possibly-null strings is `jsFilterTruthy`;
  `String.prototype.toLowerCase()` is `jsToLower` (character-wise
  lowercasing, exact on the ASCII data exercised here).
-/

/-- Lexicographic comparison of character lists, modelling the default
JavaScript string comparison used by `Array.prototype.sort()`. -/
def charListLe : List Char → List Char → Bool
  | [], _ => true
  | _ :: _, [] => false
  | c :: cs, d :: ds => if c < d then true else if d < c then false else charListLe cs ds

/-- String comparison via `charListLe` on the underlying character data. -/
def strLe (a b : String) : Bool := charListLe a.data b.data

theorem charListLe_total (a b : List Char) (h : charListLe a b = false) :
    charListLe b a = true := by
  induction a generalizing b with
  | nil => simp [charListLe] at h
  | cons c cs ih =>
    match b with
    | [] => simp [charListLe]
    | d :: ds =>
      simp only [charListLe] at h ⊢
      by_cases h1 : c < d
      · simp [h1] at h
      · by_cases h2 : d < c
        · simp [h1, h2]
        · have heq : c = d := le_antisymm (not_lt.1 h2) (not_lt.1 h1)
          subst heq
          simp only [lt_irrefl, if_false] at h ⊢
          exact ih ds h

theorem charListLe_trans (a b c : List Char) (hab : charListLe a b = true)
    (hbc : charListLe b c = true) : charListLe a c = true := by
  induction a generalizing b c with
  | nil => simp [charListLe]
  | cons x xs ih =>
    match b, c with
    | [], _ => simp [charListLe] at hab
    | _ :: _, [] => simp [charListLe] at hbc
    | y :: ys, z :: zs =>
      simp only [charListLe] at hab hbc ⊢
      by_cases hxy : x < y
      · by_cases hyz : y < z
        · simp [lt_trans hxy hyz]
        · by_cases hzy : z < y
          · simp [hyz, hzy] at hbc
          · have heq : y = z := le_antisymm (not_lt.1 hzy) (not_lt.1 hyz)
            subst heq
            simp [hxy]
      · by_cases hyx : y < x
        · simp [hxy, hyx] at hab
        · have heq : x = y := le_antisymm (not_lt.1 hyx) (not_lt.1 hxy)
          subst heq
          simp only [lt_irrefl, if_false] at hab
          by_cases hxz : x < z
          · simp [hxz]
          · by_cases hzx : z < x
            · simp [hxz, hzx] at hbc
            · simp only [hxz, hzx, if_false] at hbc ⊢
              exact ih ys zs hab hbc

theorem strLe_total (a b : String) (h : strLe a b = false) : strLe b a = true :=
  charListLe_total a.data b.data h

theorem strLe_trans (a b c : String) (hab : strLe a b = true) (hbc : strLe b c = true) :
    strLe a c = true :=
  charListLe_trans a.data b.data c.data hab hbc

/-- Character-wise lowercase, modelling `String.prototype.toLowerCase()`
(exact on the ASCII strings this app compares). -/
def jsToLower (s : String) : String := ⟨s.data.map Char.toLower⟩

/-- Insertion-order deduplication with an accumulator of already-seen
values, modelling the effect of `Array.from(new Set(...))`. -/
def setDedupAux [DecidableEq α] (seen : List α) : List α → List α
  | [] => []
  | x :: xs => if x ∈ seen then setDedupAux seen xs else x :: setDedupAux (x :: seen) xs

/-- `Array.from(new Set(l))`: keep the first occurrence of each value. -/
def setDedup [DecidableEq α] (l : List α) : List α := setDedupAux [] l

theorem mem_setDedupAux [DecidableEq α] (seen l : List α) (y : α) :
    y ∈ setDedupAux seen l ↔ y ∈ l ∧ y ∉ seen := by
  induction l generalizing seen with
  | nil => simp [setDedupAux]
  | cons x xs ih =>
    simp only [setDedupAux]
    by_cases hx : x ∈ seen
    · simp only [hx, if_true, ih, List.mem_cons]
      constructor
      · rintro ⟨hy, hs⟩
        exact ⟨Or.inr hy, hs⟩
      · rintro ⟨hy | hy, hs⟩
        · exact absurd (hy ▸ hx) hs
        · exact ⟨hy, hs⟩
    · simp only [hx, if_false, List.mem_cons, ih]
      constructor
      · rintro (rfl | ⟨hy, hs⟩)
        · exact ⟨Or.inl rfl, hx⟩
        · exact ⟨Or.inr hy, fun hc => hs (Or.inr hc)⟩
      · rintro ⟨rfl | hy, hs⟩
        · exact Or.inl rfl
        · by_cases hyx : y = x
          · exact Or.inl hyx
          · refine Or.inr ⟨hy, ?_⟩
            rintro (h1 | h2)
            · exact hyx h1
            · exact hs h2

theorem mem_setDedup [DecidableEq α] (l : List α) (y : α) :
    y ∈ setDedup l ↔ y ∈ l := by
  simp [setDedup, mem_setDedupAux]

theorem nodup_setDedupAux [DecidableEq α] (seen l : List α) :
    (setDedupAux seen l).Nodup := by
  induction l generalizing seen with
  | nil => simp [setDedupAux]
  | cons x xs ih =>
    simp only [setDedupAux]
    by_cases hx : x ∈ seen
    · simp only [hx, if_true]
      exact ih seen
    · simp only [hx, if_false, List.nodup_cons]
      refine ⟨fun hc => ?_, ih (x :: seen)⟩
      exact ((mem_setDedupAux (x :: seen) xs x).1 hc).2 (List.mem_cons_self x seen)

theorem nodup_setDedup [DecidableEq α] (l : List α) : (setDedup l).Nodup :=
  nodup_setDedupAux [] l

/-- One `.filter(Boolean)` step on a possibly-null string value: both
`null` and the empty string are falsy in JavaScript. -/
def jsTruthy (o : Option String) : Option String :=
  match o with
  | none => none
  | some s => if s = "" then none else some s

/-- `.filter(Boolean)` over a list of possibly-null strings. -/
def jsFilterTruthy (l : List (Option String)) : List String := l.filterMap jsTruthy

theorem mem_jsFilterTruthy (l : List (Option String)) (y : String) :
    y ∈ jsFilterTruthy l ↔ some y ∈ l ∧ y ≠ "" := by
  simp only [jsFilterTruthy, List.mem_filterMap]
  constructor
  · rintro ⟨o, ho, he⟩
    match o with
    | none => simp [jsTruthy] at he
    | some s =>
      by_cases hs : s = "" <;> simp [jsTruthy, hs] at he
      exact he ▸ ⟨ho, by simp [hs, ← he]⟩
  · rintro ⟨ho, hy⟩
    exact ⟨some y, ho, by simp [jsTruthy, hy]⟩

theorem nodup_jsFilterTruthy (l : List (Option String)) (h : l.Nodup) :
    (jsFilterTruthy l).Nodup := by
  refine List.Nodup.filterMap (fun a a' b hb hb' => ?_) h
  match a, a' with
  | some s, some s' =>
    by_cases hs : s = "" <;> simp [jsTruthy, hs] at hb
    by_cases hs' : s' = "" <;> simp [jsTruthy, hs'] at hb'
    rw [hb, hb']
  | none, _ => simp [jsTruthy] at hb
  | some s, none => simp [jsTruthy] at hb'

/-- Insert a string into a (sorted) list at the first admissible place. -/
def insertSorted (x : String) : List String → List String
  | [] => [x]
  | y :: ys => if strLe x y then x :: y :: ys else y :: insertSorted x ys

/-- `Array.prototype.sort()` on strings: ascending by `strLe`.  After the
dedup step all entries are distinct, so any correct sort produces this
unique sorted arrangement. -/
def sortStrings (l : List String) : List String := l.foldr insertSorted []

theorem perm_insertSorted (x : String) (l : List String) :
    (insertSorted x l).Perm (x :: l) := by
  induction l with
  | nil => simp [insertSorted]
  | cons y ys ih =>
    simp only [insertSorted]
    by_cases h : strLe x y = true
    · simp [h]
    · simp only [h, if_false]
      exact (ih.cons y).trans (List.Perm.swap x y ys)

theorem perm_sortStrings (l : List String) : (sortStrings l).Perm l := by
  induction l with
  | nil => simp [sortStrings]
  | cons x xs ih =>
    exact (perm_insertSorted x (sortStrings xs)).trans (ih.cons x)

theorem mem_sortStrings (l : List String) (y : String) :
    y ∈ sortStrings l ↔ y ∈ l :=
  (perm_sortStrings l).mem_iff

theorem nodup_sortStrings (l : List String) (h : l.Nodup) :
    (sortStrings l).Nodup :=
  (perm_sortStrings l).nodup_iff.2 h

theorem pairwise_insertSorted (x : String) (l : List String)
    (h : l.Pairwise (fun a b => strLe a b = true)) :
    (insertSorted x l).Pairwise (fun a b => strLe a b = true) := by
  induction l with
  | nil => simp [insertSorted]
  | cons y ys ih =>
    rcases List.pairwise_cons.1 h with ⟨hy, hys⟩
    simp only [insertSorted]
    by_cases hxy : strLe x y = true
    · simp only [hxy, if_true]
      refine List.pairwise_cons.2 ⟨?_, h⟩
      intro z hz
      rcases List.mem_cons.1 hz with rfl | hz'
      · exact hxy
      · exact strLe_trans x y z hxy (hy z hz')
    · simp only [hxy, if_false]
      refine List.pairwise_cons.2 ⟨?_, ih hys⟩
      intro z hz
      rcases List.mem_cons.1 ((perm_insertSorted x ys).mem_iff.1 hz) with heq | hz'
      · show strLe y z = true
        rw [heq]
        exact strLe_total x y (by simpa using hxy)
      · exact hy z hz'

theorem pairwise_sortStrings (l : List String) :
    (sortStrings l).Pairwise (fun a b => strLe a b = true) := by
  induction l with
  | nil => simp [sortStrings]
  | cons x xs ih => exact pairwise_insertSorted x (sortStrings xs) ih

/-- Outcome of one awaited supabase read, as the client code can observe
it: rows in `data`, a null `data` with no error, an error reported in the
`error` field, or an exception thrown at the `await`. -/
inductive FetchOutcome (α : Type) where
  | ok (rows : List α)
  | okNoData
  | errReturned
  | threw
deriving DecidableEq

/-- `fetchNames` (identical in `src/services/api.ts` lines 4-28,
`src/unnamed/part_000` lines 4-28 and `src/unnamed/part_001` lines 6-26):
select the name column of every `Cadastro_Operacional` row, dedup with
`new Set`, drop falsy values with `.filter(Boolean)`, sort ascending.
Each row is the possibly-null value of the `Usuario_Operação` column.
The optional `status` parameter is ignored by the body.  Errors of any
kind yield `[]`. -/
def fetchNames (_status : Option String) (q : FetchOutcome (Option String)) : List String :=
  match q with
  | FetchOutcome.ok rows => sortStrings (jsFilterTruthy (setDedup rows))
  | FetchOutcome.okNoData => []
  | FetchOutcome.errReturned => []
  | FetchOutcome.threw => []

/-- One row of the external table `SMO_Sistema`, restricted to the columns
this app reads or filters on; `none` models SQL NULL.  The acting-employee
column is the accent-free spelling `Usuario_Operacao`, which is the one
the code reads and writes. -/
structure SMORow where
  ID_Manifesto : String
  Status : String
  Usuario_Operacao : Option String
  CIA : Option String
  Manifesto_Disponivel : Option String
  Manifesto_Iniciado : Option String
deriving DecidableEq

/-- `fetchManifestosForEmployee` (`src/unnamed/part_001` lines 107-131):
rows of `SMO_Sistema` with `Usuario_Operacao = name`,
`Manifesto_Disponivel` IS NULL and `Manifesto_Iniciado` IS NOT NULL,
projected to `ID_Manifesto` with no dedup, no sort and no condition on
`Status`; `[]` on a reported error, a thrown error, or null data. -/
def fetchManifestosForEmployee (name : String) (q : FetchOutcome SMORow) : List String :=
  match q with
  | FetchOutcome.ok rows =>
      (rows.filter (fun r =>
        r.Usuario_Operacao == some name && r.Manifesto_Disponivel == none
          && r.Manifesto_Iniciado != none)).map (fun r => r.ID_Manifesto)
  | FetchOutcome.okNoData => []
  | FetchOutcome.errReturned => []
  | FetchOutcome.threw => []

/-- `fetchCIAs` (identical in `src/services/api.ts` lines 79-93 and
`src/unnamed/part_001` lines 133-147): select the `CIA` column (the query
carries a `.neq('CIA', null)` filter, so each returned row is a string),
fall back to the literal list on a reported error, dedup and sort
otherwise; the `catch` arm for a thrown error returns `[]`, and null data
flows through `(data || [])`. -/
def fetchCIAs (q : FetchOutcome String) : List String :=
  match q with
  | FetchOutcome.ok rows => sortStrings (setDedup rows)
  | FetchOutcome.okNoData => sortStrings (setDedup ([] : List String))
  | FetchOutcome.errReturned => ["CIA A", "CIA B", "CIA C"]
  | FetchOutcome.threw => []

/-- Outcome of the awaited `registros_operacionais` insert: success, an
error reported in the `error` field without throwing, or a thrown
exception carrying `error.message`. -/
inductive InsertOutcome where
  | ok
  | errReturned (msg : String)
  | threw (msg : String)
deriving DecidableEq

/-- The `SMO_Sistema` update issued by `submitManifestoAction`:
`update({ Status, Usuario_Operacao }).eq('ID_Manifesto', id)`. -/
structure StatusUpdate where
  Status : String
  Usuario_Operacao : String
  ID_Manifesto : String
deriving DecidableEq

/-- One attempted webhook POST: target URL and JSON body fields. -/
structure WebhookCall where
  url : String
  body : List (String × String)
deriving DecidableEq

/-- The `{ success, message }` value returned to the caller. -/
structure SubmitResult where
  success : Bool
  message : String
deriving DecidableEq

/-- Everything one call to a submit variant does: the returned value, the
list of `SMO_Sistema` updates issued, the list of webhook POSTs attempted,
and how many of those attempts threw (each such error is only logged). -/
structure SubmitTrace where
  result : SubmitResult
  updates : List StatusUpdate
  webhooks : List WebhookCall
  webhookFailures : Nat
deriving DecidableEq

/-- The `newStatus` computation shared by all three submit variants:
the variant's start label maps to "Manifesto Iniciado", anything else to
"Manifesto Finalizado". -/
def newStatusFor (startLabel action : String) : String :=
  if action = startLabel then "Manifesto Iniciado" else "Manifesto Finalizado"

/-- Webhook phase of `src/unnamed/part_001` lines 189-225: pick the URL
(`Iniciar-Manifesto` for the start label, `Manifesto-Operacional`
otherwise), build the body for the start or finish label (empty body for
any other label), and POST only when the body is non-empty; a thrown
webhook error is caught and logged. -/
def submitWebhookPhase (action id name ptBRNow : String) (webhookThrows : Bool) :
    List WebhookCall × Nat :=
  let webhookUrl :=
    if action = "Iniciar Manifesto" then
      "https://projeto-teste-n8n.ly7t0m.easypanel.host/webhook/Iniciar-Manifesto"
    else
      "https://projeto-teste-n8n.ly7t0m.easypanel.host/webhook/Manifesto-Operacional"
  let webhookBody : List (String × String) :=
    if action = "Iniciar Manifesto" then
      [("id_manifesto", id), ("nome", name), ("Manifesto_Iniciado", ptBRNow)]
    else if action = "Finalizar Manifesto" then
      [("id_manifesto", id), ("nome", name), ("Manifesto_Finalizado", ptBRNow)]
    else []
  if webhookBody.isEmpty then ([], 0)
  else ([{ url := webhookUrl, body := webhookBody }], if webhookThrows then 1 else 0)

/-- Success-message block of `src/unnamed/part_000` lines 151-157 and
`src/unnamed/part_001` lines 227-233. -/
def submitMessage (action : String) : String :=
  if action = "Iniciar Manifesto" then "Manifesto iniciado com sucesso!"
  else if action = "Finalizar Manifesto" then "Manifesto finalizado com sucesso!"
  else "Registro salvo com sucesso!"

/-- `submitManifestoAction` of `src/unnamed/part_001` lines 163-238.
A thrown insert jumps to the `catch` arm before the update and the
webhook; an insert whose error is merely reported skips the update
(`if (!error)`) but still runs the webhook phase and still returns the
success message.  `ptBRNow` is `new Date().toLocaleString('pt-BR')`. -/
def submitManifestoAction (action id name : String) (insertOutcome : InsertOutcome)
    (ptBRNow : String) (webhookThrows : Bool) : SubmitTrace :=
  match insertOutcome with
  | InsertOutcome.threw msg =>
      { result := { success := false, message := "Erro ao processar: " ++ msg }
        updates := [], webhooks := [], webhookFailures := 0 }
  | InsertOutcome.ok =>
      let wh := submitWebhookPhase action id name ptBRNow webhookThrows
      { result := { success := true, message := submitMessage action }
        updates := [{ Status := newStatusFor "Iniciar Manifesto" action
                      Usuario_Operacao := name, ID_Manifesto := id }]
        webhooks := wh.1, webhookFailures := wh.2 }
  | InsertOutcome.errReturned _ =>
      let wh := submitWebhookPhase action id name ptBRNow webhookThrows
      { result := { success := true, message := submitMessage action }
        updates := [], webhooks := wh.1, webhookFailures := wh.2 }

/-- `submitManifestoAction` of `src/unnamed/part_000` lines 109-162: like
the part_001 variant but the webhook fires only for the start label
(lines 133-149), always at the `Iniciar-Manifesto` URL. -/
def submitManifestoActionV1 (action id name : String) (insertOutcome : InsertOutcome)
    (ptBRNow : String) (webhookThrows : Bool) : SubmitTrace :=
  match insertOutcome with
  | InsertOutcome.threw msg =>
      { result := { success := false, message := "Erro ao processar: " ++ msg }
        updates := [], webhooks := [], webhookFailures := 0 }
  | InsertOutcome.ok =>
      let wh : List WebhookCall × Nat :=
        if action = "Iniciar Manifesto" then
          ([{ url := "https://projeto-teste-n8n.ly7t0m.easypanel.host/webhook/Iniciar-Manifesto"
              body := [("id_manifesto", id), ("nome", name), ("Manifesto_Iniciado", ptBRNow)] }],
            if webhookThrows then 1 else 0)
        else ([], 0)
      { result := { success := true, message := submitMessage action }
        updates := [{ Status := newStatusFor "Iniciar Manifesto" action
                      Usuario_Operacao := name, ID_Manifesto := id }]
        webhooks := wh.1, webhookFailures := wh.2 }
  | InsertOutcome.errReturned _ =>
      let wh : List WebhookCall × Nat :=
        if action = "Iniciar Manifesto" then
          ([{ url := "https://projeto-teste-n8n.ly7t0m.easypanel.host/webhook/Iniciar-Manifesto"
              body := [("id_manifesto", id), ("nome", name), ("Manifesto_Iniciado", ptBRNow)] }],
            if webhookThrows then 1 else 0)
        else ([], 0)
      { result := { success := true, message := submitMessage action }
        updates := [], webhooks := wh.1, webhookFailures := wh.2 }

/-- Success-message block of `src/services/api.ts` lines 133-139: this
variant speaks the "Puxe" vocabulary and returns different texts. -/
def submitMessageV0 (action : String) : String :=
  if action = "Iniciar Puxe" then "Puxe registrado com sucesso!"
  else if action = "Finalizar Puxe" then "Obrigado, puxe concluído!"
  else "Registro salvo com sucesso!"

/-- `submitManifestoAction` of `src/services/api.ts` lines 109-144 (the
variant `App.tsx` imports): start label "Iniciar Puxe", no webhook at
all, and the "Puxe" success messages. -/
def submitManifestoActionV0 (action id name : String) (insertOutcome : InsertOutcome) :
    SubmitTrace :=
  match insertOutcome with
  | InsertOutcome.threw msg =>
      { result := { success := false, message := "Erro ao processar: " ++ msg }
        updates := [], webhooks := [], webhookFailures := 0 }
  | InsertOutcome.ok =>
      { result := { success := true, message := submitMessageV0 action }
        updates := [{ Status := newStatusFor "Iniciar Puxe" action
                      Usuario_Operacao := name, ID_Manifesto := id }]
        webhooks := [], webhookFailures := 0 }
  | InsertOutcome.errReturned _ =>
      { result := { success := true, message := submitMessageV0 action }
        updates := [], webhooks := [], webhookFailures := 0 }

/-- The `FeedbackMessage` shape of `src/App.tsx` (`types.ts`): text plus a
kind in `success`, `error`, or the empty string. -/
structure Feedback where
  text : String
  type : String
deriving DecidableEq

/-- The root component state of `src/App.tsx` that `handleSubmit` reads
or writes (`idsList`, loading flags and timers are orthogonal to the
claims and omitted). -/
structure AppState where
  action : String
  name : String
  selectedManifestoId : String
  namesList : List String
  manifestosForEmployee : List String
  lastSubmission : Option String
  feedback : Feedback
deriving DecidableEq

/-- The duplicate-submission fingerprint of `src/App.tsx` line 162:
the template literal `action-selectedManifestoId-name`. -/
def submissionKey (action id name : String) : String :=
  action ++ "-" ++ id ++ "-" ++ name

/-- What the validation prefix of `handleSubmit` (`src/App.tsx` lines
142-166) decides: silently do nothing, set an error feedback and stop, or
go on to the backend call with the computed fingerprint. -/
inductive SubmitGate where
  | noop
  | rejected (fb : Feedback)
  | proceed (key : String)
deriving DecidableEq

/-- The validation prefix of `handleSubmit` (`src/App.tsx` lines 142-166),
checks in source order: no action; empty fields for either action; for
"Iniciar Puxe" with a non-empty loaded name list, a case-insensitive
membership test of the entered name; the duplicate-fingerprint guard. -/
def handleSubmitGate (s : AppState) : SubmitGate :=
  if s.action = "" then SubmitGate.noop
  else if s.action = "Iniciar Puxe" ∧ (s.name = "" ∨ s.selectedManifestoId = "") then
    SubmitGate.rejected { text := "Preencha todos os campos.", type := "error" }
  else if s.action = "Finalizar Puxe" ∧ (s.name = "" ∨ s.selectedManifestoId = "") then
    SubmitGate.rejected { text := "Preencha todos os campos.", type := "error" }
  else if s.action = "Iniciar Puxe" ∧ s.namesList ≠ [] ∧
      (s.namesList.any fun n => jsToLower n == jsToLower s.name) = false then
    SubmitGate.rejected { text := "Por favor, escolha um nome válido da lista.", type := "error" }
  else if s.lastSubmission = some (submissionKey s.action s.selectedManifestoId s.name) then
    SubmitGate.rejected { text := "Este registro já foi enviado recentemente!", type := "error" }
  else SubmitGate.proceed (submissionKey s.action s.selectedManifestoId s.name)

/-- State effect of the validation prefix of `handleSubmit`: feedback is
cleared first (line 143), an error feedback replaces it on a rejection,
and the second component is the fingerprint of the backend call that the
function goes on to make, or `none` when no call is attempted. -/
def handleSubmitValidate (s : AppState) : AppState × Option String :=
  match handleSubmitGate s with
  | SubmitGate.noop => ({ s with feedback := { text := "", type := "" } }, none)
  | SubmitGate.rejected fb => ({ s with feedback := fb }, none)
  | SubmitGate.proceed key => ({ s with feedback := { text := "", type := "" } }, some key)

/-- The result callback of `handleSubmit` (`src/App.tsx` lines 172-199):
on success, set success feedback, store the fingerprint, and reset fields
per action (for "Finalizar Puxe" drop the submitted id from the visible
list; otherwise clear name and id — the `loadIds()` refresh only touches
the omitted `idsList`); on failure, set error feedback and nothing else. -/
def handleSubmitResult (s : AppState) (key : String) (result : SubmitResult) : AppState :=
  if result.success then
    let s1 := { s with feedback := { text := result.message, type := "success" }
                       lastSubmission := some key }
    if s.action = "Finalizar Puxe" then
      { s1 with manifestosForEmployee :=
                  s1.manifestosForEmployee.filter (fun i => i != s.selectedManifestoId)
                selectedManifestoId := "" }
    else
      { s1 with selectedManifestoId := "", name := "" }
  else
    { s with feedback := { text := result.message, type := "error" } }

theorem strData_append (a b : String) : (a ++ b).data = a.data ++ b.data := by
  cases a; cases b; rfl

theorem strExt (a b : String) (h : a.data = b.data) : a = b := by
  cases a; cases b; simp_all

theorem strAppend_cancel_right (a b c : String) (h : a ++ c = b ++ c) : a = b := by
  apply strExt
  have h2 : (a ++ c).data = (b ++ c).data := by rw [h]
  rw [strData_append, strData_append] at h2
  exact List.append_cancel_right h2

theorem strAppend_cancel_left (a b c : String) (h : a ++ b = a ++ c) : b = c := by
  apply strExt
  have h2 : (a ++ b).data = (a ++ c).data := by rw [h]
  rw [strData_append, strData_append] at h2
  exact List.append_cancel_left h2

theorem submissionKey_inj_action (a a' i n : String)
    (h : submissionKey a i n = submissionKey a' i n) : a = a' := by
  simp only [submissionKey] at h
  have h1 := strAppend_cancel_right (a ++ "-" ++ i ++ "-") (a' ++ "-" ++ i ++ "-") n h
  have h2 := strAppend_cancel_right (a ++ "-" ++ i) (a' ++ "-" ++ i) "-" h1
  have h3 := strAppend_cancel_right (a ++ "-") (a' ++ "-") i h2
  exact strAppend_cancel_right a a' "-" h3

theorem submissionKey_inj_id (a i i' n : String)
    (h : submissionKey a i n = submissionKey a i' n) : i = i' := by
  simp only [submissionKey] at h
  have h1 := strAppend_cancel_right (a ++ "-" ++ i ++ "-") (a ++ "-" ++ i' ++ "-") n h
  have h2 := strAppend_cancel_right (a ++ "-" ++ i) (a ++ "-" ++ i') "-" h1
  exact strAppend_cancel_left (a ++ "-") i i' h2

theorem submissionKey_inj_name (a i n n' : String)
    (h : submissionKey a i n = submissionKey a i n') : n = n' := by
  simp only [submissionKey] at h
  exact strAppend_cancel_left (a ++ "-" ++ i ++ "-") n n' h

/-- C1, counterexample: with the start label, a manifest id and a name, an
action-log insert that FAILS by reporting an error in the `error` field
(without throwing) makes `submitManifestoAction` (part_001 variant) skip
the status update but still fire the webhook and still return
`{success := true}` — contradicting the claim that every log-insert
failure yields `{success := false, "Erro ao processar: ..."}` with no
status update and no webhook call. -/
theorem C1_counterexample :
    (submitManifestoAction "Iniciar Manifesto" "X1" "Maria"
        (InsertOutcome.errReturned "duplicate key") "01/01/2024, 10:00:00" false).result.success
      = true
    ∧ (submitManifestoAction "Iniciar Manifesto" "X1" "Maria"
        (InsertOutcome.errReturned "duplicate key") "01/01/2024, 10:00:00" false).updates = []
    ∧ (submitManifestoAction "Iniciar Manifesto" "X1" "Maria"
        (InsertOutcome.errReturned "duplicate key") "01/01/2024, 10:00:00" false).webhooks
      ≠ [] := by
  refine ⟨rfl, rfl, ?_⟩
  decide

/-- C1, amended: only a THROWN action-log insert produces
`{success := false, message := "Erro ao processar: " ++ msg}` with no
status update and no webhook call (in all three variants); an insert
whose error is merely reported skips the status update but still returns
`success := true` (and the webhook-enabled variant still posts). -/
theorem C1_amended_insert_failure (action id name msg ptBR : String) (w : Bool) :
    submitManifestoAction action id name (InsertOutcome.threw msg) ptBR w
      = { result := { success := false, message := "Erro ao processar: " ++ msg }
          updates := [], webhooks := [], webhookFailures := 0 }
    ∧ submitManifestoActionV1 action id name (InsertOutcome.threw msg) ptBR w
      = { result := { success := false, message := "Erro ao processar: " ++ msg }
          updates := [], webhooks := [], webhookFailures := 0 }
    ∧ submitManifestoActionV0 action id name (InsertOutcome.threw msg)
      = { result := { success := false, message := "Erro ao processar: " ++ msg }
          updates := [], webhooks := [], webhookFailures := 0 }
    ∧ (submitManifestoAction action id name (InsertOutcome.errReturned msg) ptBR w).updates = []
    ∧ (submitManifestoAction action id name (InsertOutcome.errReturned msg) ptBR w).result.success
      = true :=
  ⟨rfl, rfl, rfl, rfl, rfl⟩

/-- C2: when the action-log insert succeeds, each variant issues exactly
one `SMO_Sistema` update on the row with the given `ID_Manifesto`,
setting `Status` to "Manifesto Iniciado" when the action equals the
variant's start label and to "Manifesto Finalizado" for any other label,
and `Usuario_Operacao` to the given name; and no update is issued when
the insert reported an error or threw. -/
theorem C2_insert_success_updates_status (action id name msg ptBR : String) (w : Bool) :
    (submitManifestoAction action id name InsertOutcome.ok ptBR w).updates
      = [{ Status := if action = "Iniciar Manifesto" then "Manifesto Iniciado" else "Manifesto Finalizado"
           Usuario_Operacao := name, ID_Manifesto := id }]
    ∧ (submitManifestoActionV1 action id name InsertOutcome.ok ptBR w).updates
      = [{ Status := if action = "Iniciar Manifesto" then "Manifesto Iniciado" else "Manifesto Finalizado"
           Usuario_Operacao := name, ID_Manifesto := id }]
    ∧ (submitManifestoActionV0 action id name InsertOutcome.ok).updates
      = [{ Status := if action = "Iniciar Puxe" then "Manifesto Iniciado" else "Manifesto Finalizado"
           Usuario_Operacao := name, ID_Manifesto := id }]
    ∧ (submitManifestoAction action id name (InsertOutcome.errReturned msg) ptBR w).updates = []
    ∧ (submitManifestoAction action id name (InsertOutcome.threw msg) ptBR w).updates = [] :=
  ⟨rfl, rfl, rfl, rfl, rfl⟩

/-- C3: a non-throwing submission with the start label "Iniciar Manifesto"
POSTs exactly one webhook call to the fixed URL ending in
`/webhook/Iniciar-Manifesto`, with body `id_manifesto`, `nome`, and the
pt-BR timestamp under `Manifesto_Iniciado` (both webhook-enabled
variants); and for every submission the returned result is independent of
whether the webhook attempt throws — a webhook failure is only logged. -/
theorem C3_start_webhook_best_effort (id name msg ptBR : String) (w : Bool) :
    (submitManifestoAction "Iniciar Manifesto" id name InsertOutcome.ok ptBR w).webhooks
      = [{ url := "https://projeto-teste-n8n.ly7t0m.easypanel.host/webhook/Iniciar-Manifesto"
           body := [("id_manifesto", id), ("nome", name), ("Manifesto_Iniciado", ptBR)] }]
    ∧ (submitManifestoAction "Iniciar Manifesto" id name (InsertOutcome.errReturned msg) ptBR w).webhooks
      = [{ url := "https://projeto-teste-n8n.ly7t0m.easypanel.host/webhook/Iniciar-Manifesto"
           body := [("id_manifesto", id), ("nome", name), ("Manifesto_Iniciado", ptBR)] }]
    ∧ (submitManifestoActionV1 "Iniciar Manifesto" id name InsertOutcome.ok ptBR w).webhooks
      = [{ url := "https://projeto-teste-n8n.ly7t0m.easypanel.host/webhook/Iniciar-Manifesto"
           body := [("id_manifesto", id), ("nome", name), ("Manifesto_Iniciado", ptBR)] }]
    ∧ (∀ (action : String) (o : InsertOutcome),
        (submitManifestoAction action id name o ptBR true).result
          = (submitManifestoAction action id name o ptBR false).result)
    ∧ (∀ (action : String) (o : InsertOutcome),
        (submitManifestoActionV1 action id name o ptBR true).result
          = (submitManifestoActionV1 action id name o ptBR false).result) := by
  refine ⟨rfl, rfl, rfl, ?_, ?_⟩
  · intro action o
    cases o <;> rfl
  · intro action o
    cases o <;> rfl

/-- C4, counterexample: in the `src/services/api.ts` variant — the one
`App.tsx` imports, whose start label is "Iniciar Puxe" — a successful
start submission returns "Puxe registrado com sucesso!", not the claimed
"Manifesto iniciado com sucesso!". -/
theorem C4_counterexample :
    (submitManifestoActionV0 "Iniciar Puxe" "X1" "Maria" InsertOutcome.ok).result
      = { success := true, message := "Puxe registrado com sucesso!" }
    ∧ (submitManifestoActionV0 "Iniciar Puxe" "X1" "Maria" InsertOutcome.ok).result.message
      ≠ "Manifesto iniciado com sucesso!" := by
  refine ⟨rfl, ?_⟩
  decide

/-- C4, amended: the claimed success messages ("Manifesto iniciado com
sucesso!" / "Manifesto finalizado com sucesso!" / "Registro salvo com
sucesso!") are those of the two "Manifesto"-vocabulary variants
(part_000, part_001); the api.ts variant used by the app returns
"Puxe registrado com sucesso!" for its start label, "Obrigado, puxe
concluído!" for its finish label, and "Registro salvo com sucesso!"
otherwise. -/
theorem C4_amended_success_messages (action id name ptBR : String) (w : Bool) :
    (submitManifestoAction action id name InsertOutcome.ok ptBR w).result
      = { success := true
          message :=
            if action = "Iniciar Manifesto" then "Manifesto iniciado com sucesso!"
            else if action = "Finalizar Manifesto" then "Manifesto finalizado com sucesso!"
            else "Registro salvo com sucesso!" }
    ∧ (submitManifestoActionV1 action id name InsertOutcome.ok ptBR w).result
      = { success := true
          message :=
            if action = "Iniciar Manifesto" then "Manifesto iniciado com sucesso!"
            else if action = "Finalizar Manifesto" then "Manifesto finalizado com sucesso!"
            else "Registro salvo com sucesso!" }
    ∧ (submitManifestoActionV0 action id name InsertOutcome.ok).result
      = { success := true
          message :=
            if action = "Iniciar Puxe" then "Puxe registrado com sucesso!"
            else if action = "Finalizar Puxe" then "Obrigado, puxe concluído!"
            else "Registro salvo com sucesso!" } :=
  ⟨rfl, rfl, rfl⟩

/-- C7: `fetchNames` ignores its optional status parameter entirely, and
on returned rows it yields exactly the non-empty, non-null name values,
without duplicates and sorted ascending (a sorted duplicate-free list is
determined by its members, so these four conjuncts characterise the
output completely); the spec's example rows give `["Ana", "Maria"]`; all
error outcomes yield `[]`. -/
theorem C7_fetchNames_projection (status : Option String)
    (q : FetchOutcome (Option String)) (rows : List (Option String)) (y : String) :
    fetchNames status q = fetchNames none q
    ∧ (y ∈ fetchNames none (FetchOutcome.ok rows) ↔ some y ∈ rows ∧ y ≠ "")
    ∧ (fetchNames none (FetchOutcome.ok rows)).Pairwise (fun a b => strLe a b = true)
    ∧ (fetchNames none (FetchOutcome.ok rows)).Nodup
    ∧ fetchNames none (FetchOutcome.ok [some "Maria", some "Ana", some "Maria"])
      = ["Ana", "Maria"]
    ∧ fetchNames none FetchOutcome.errReturned = []
    ∧ fetchNames none FetchOutcome.threw = [] := by
  refine ⟨rfl, ?_, pairwise_sortStrings _,
    nodup_sortStrings _ (nodup_jsFilterTruthy _ (nodup_setDedup rows)), by decide, rfl, rfl⟩
  have h : fetchNames none (FetchOutcome.ok rows) = sortStrings (jsFilterTruthy (setDedup rows)) :=
    rfl
  rw [h, mem_sortStrings, mem_jsFilterTruthy, mem_setDedup]

/-- C8: `fetchManifestosForEmployee` (part_001 variant) projects
`ID_Manifesto` from exactly the rows whose `Usuario_Operacao` equals the
given name, whose `Manifesto_Disponivel` is NULL and whose
`Manifesto_Iniciado` is non-NULL, as a raw list (no dedup, no sort);
rewriting every row's `Status` arbitrarily never changes the result, so
no textual `Status` filter is applied; every error outcome yields `[]`;
the concrete run keeps duplicates and source order and accepts a row
whose `Status` is not "Manifesto Iniciado". -/
theorem C8_fetchManifestosForEmployee_markers (name : String) (rows : List SMORow)
    (g : SMORow → String) :
    fetchManifestosForEmployee name
        (FetchOutcome.ok (rows.map (fun r => { r with Status := g r })))
      = fetchManifestosForEmployee name (FetchOutcome.ok rows)
    ∧ fetchManifestosForEmployee name (FetchOutcome.ok rows)
      = (rows.filter (fun r => r.Usuario_Operacao == some name
           && r.Manifesto_Disponivel == none && r.Manifesto_Iniciado != none)).map
           (fun r => r.ID_Manifesto)
    ∧ fetchManifestosForEmployee name FetchOutcome.errReturned = []
    ∧ fetchManifestosForEmployee name FetchOutcome.threw = []
    ∧ fetchManifestosForEmployee "João"
        (FetchOutcome.ok
          [{ ID_Manifesto := "B", Status := "status irrelevante", Usuario_Operacao := some "João"
             CIA := none, Manifesto_Disponivel := none, Manifesto_Iniciado := some "t1" },
           { ID_Manifesto := "A", Status := "Manifesto Finalizado", Usuario_Operacao := some "João"
             CIA := none, Manifesto_Disponivel := none, Manifesto_Iniciado := some "t2" },
           { ID_Manifesto := "A", Status := "", Usuario_Operacao := some "João"
             CIA := none, Manifesto_Disponivel := none, Manifesto_Iniciado := some "t3" },
           { ID_Manifesto := "C", Status := "Manifesto Iniciado", Usuario_Operacao := some "Maria"
             CIA := none, Manifesto_Disponivel := none, Manifesto_Iniciado := some "t4" },
           { ID_Manifesto := "D", Status := "Manifesto Iniciado", Usuario_Operacao := some "João"
             CIA := none, Manifesto_Disponivel := some "disp", Manifesto_Iniciado := some "t5" },
           { ID_Manifesto := "E", Status := "Manifesto Iniciado", Usuario_Operacao := some "João"
             CIA := none, Manifesto_Disponivel := none, Manifesto_Iniciado := none }])
      = ["B", "A", "A"] := by
  refine ⟨?_, rfl, rfl, rfl, by decide⟩
  induction rows with
  | nil => rfl
  | cons r rs ih =>
    simp only [List.map_cons, fetchManifestosForEmployee, List.filter_cons] at ih ⊢
    by_cases hc : (r.Usuario_Operacao == some name && r.Manifesto_Disponivel == none
        && r.Manifesto_Iniciado != none) = true
    · simp only [hc, if_true, List.map_cons, List.cons.injEq]
      exact ⟨trivial, ih⟩
    · simp only [Bool.not_eq_true] at hc
      simp only [hc, Bool.false_eq_true, if_false]
      exact ih

/-- C9, counterexample: a THROWN backend error makes `fetchCIAs` return
`[]` through its `catch` arm, not the claimed fallback list — only a
reported (non-thrown) query error returns `["CIA A","CIA B","CIA C"]`. -/
theorem C9_counterexample :
    fetchCIAs FetchOutcome.threw ≠ ["CIA A", "CIA B", "CIA C"] := by
  decide

/-- C9, amended: `fetchCIAs` is a pure function of the backing rows (two
calls over unchanged rows return the same value), its normal result is
deduplicated and sorted ascending with exactly the backing values as
members, a reported query error returns exactly the fallback list
`["CIA A","CIA B","CIA C"]`, and a thrown exception returns `[]`. -/
theorem C9_amended_fetchCIAs (rows : List String) (y : String) :
    fetchCIAs (FetchOutcome.ok rows) = fetchCIAs (FetchOutcome.ok rows)
    ∧ (y ∈ fetchCIAs (FetchOutcome.ok rows) ↔ y ∈ rows)
    ∧ (fetchCIAs (FetchOutcome.ok rows)).Pairwise (fun a b => strLe a b = true)
    ∧ (fetchCIAs (FetchOutcome.ok rows)).Nodup
    ∧ fetchCIAs FetchOutcome.errReturned = ["CIA A", "CIA B", "CIA C"]
    ∧ fetchCIAs FetchOutcome.threw = [] := by
  refine ⟨rfl, ?_, pairwise_sortStrings _, nodup_sortStrings _ (nodup_setDedup rows), rfl, rfl⟩
  have h : fetchCIAs (FetchOutcome.ok rows) = sortStrings (setDedup rows) := rfl
  rw [h, mem_sortStrings, mem_setDedup]

/-- C5: the validation prefix of `handleSubmit` short-circuits in source
order with no backend call on any failure: no action is a silent no-op
(feedback merely cleared, no call); for either action an empty name or
empty manifest id sets exactly "Preencha todos os campos." (regardless of
any later check); for "Iniciar Puxe" with a non-empty loaded list and no
case-insensitive match the feedback is "Por favor, escolha um nome válido
da lista."; "Ana" against list `["ana","BEN"]` is accepted and the call
proceeds, while "Carla" is rejected with the choose-a-valid-name
message. -/
theorem C5_handleSubmit_validation :
    (∀ s : AppState, s.action = "" →
      handleSubmitValidate s = ({ s with feedback := { text := "", type := "" } }, none))
    ∧ (∀ s : AppState, (s.action = "Iniciar Puxe" ∨ s.action = "Finalizar Puxe") →
      (s.name = "" ∨ s.selectedManifestoId = "") →
      handleSubmitValidate s
        = ({ s with feedback := { text := "Preencha todos os campos.", type := "error" } }, none))
    ∧ (∀ s : AppState, s.action = "Iniciar Puxe" → s.name ≠ "" → s.selectedManifestoId ≠ "" →
      s.namesList ≠ [] → (∀ n ∈ s.namesList, jsToLower n ≠ jsToLower s.name) →
      handleSubmitValidate s
        = ({ s with
              feedback := { text := "Por favor, escolha um nome válido da lista.", type := "error" } },
           none))
    ∧ (handleSubmitValidate
        { action := "Iniciar Puxe", name := "Ana", selectedManifestoId := "M1"
          namesList := ["ana", "BEN"], manifestosForEmployee := [], lastSubmission := none
          feedback := { text := "", type := "" } }).2
      = some (submissionKey "Iniciar Puxe" "M1" "Ana")
    ∧ handleSubmitValidate
        { action := "Iniciar Puxe", name := "Carla", selectedManifestoId := "M1"
          namesList := ["ana", "BEN"], manifestosForEmployee := [], lastSubmission := none
          feedback := { text := "", type := "" } }
      = ({ action := "Iniciar Puxe", name := "Carla", selectedManifestoId := "M1"
           namesList := ["ana", "BEN"], manifestosForEmployee := [], lastSubmission := none
           feedback := { text := "Por favor, escolha um nome válido da lista.", type := "error" } },
         none) := by
  refine ⟨?_, ?_, ?_, by decide, by decide⟩
  · intro s h
    simp [handleSubmitValidate, handleSubmitGate, h]
  · rintro s (ha | ha) (hb | hb) <;>
      simp [handleSubmitValidate, handleSubmitGate, ha, hb]
  · intro s ha hn hi hl hm
    have hany : (s.namesList.any fun n => jsToLower n == jsToLower s.name) = false := by
      rw [List.any_eq_false]
      intro n hn'
      simpa using hm n hn'
    simp [handleSubmitValidate, handleSubmitGate, ha, hn, hi, hl, hany]

/-- C5 witness: conjunct two applied at a concrete state — a
"Finalizar Puxe" submission with an empty name is rejected with
"Preencha todos os campos." and no backend call. -/
theorem C5_handleSubmit_validation_witness :
    handleSubmitValidate
        { action := "Finalizar Puxe", name := "", selectedManifestoId := "M9"
          namesList := [], manifestosForEmployee := [], lastSubmission := none
          feedback := { text := "antiga", type := "success" } }
      = ({ action := "Finalizar Puxe", name := "", selectedManifestoId := "M9"
           namesList := [], manifestosForEmployee := [], lastSubmission := none
           feedback := { text := "Preencha todos os campos.", type := "error" } }, none) :=
  C5_handleSubmit_validation.2.1 _ (Or.inr rfl) (Or.inl rfl)

/-- C6: the duplicate-submission fingerprint is a function of exactly the
triple (action, manifest id, name) — states agreeing on the triple share
it, and no timestamp enters it; a state that passes the field checks and
whose stored `lastSubmission` equals the fingerprint of its current
triple is rejected with "Este registro já foi enviado recentemente!";
changing exactly one of the three fields always changes the fingerprint;
and with a stored fingerprint different from the current triple's, the
submission proceeds past the duplicate guard to the backend call. -/
theorem C6_duplicate_fingerprint :
    (∀ s1 s2 : AppState, s1.action = s2.action →
      s1.selectedManifestoId = s2.selectedManifestoId → s1.name = s2.name →
      submissionKey s1.action s1.selectedManifestoId s1.name
        = submissionKey s2.action s2.selectedManifestoId s2.name)
    ∧ (∀ s : AppState,
      (s.action = "Finalizar Puxe"
        ∨ s.action = "Iniciar Puxe"
            ∧ (s.namesList = [] ∨ ∃ n ∈ s.namesList, jsToLower n = jsToLower s.name)) →
      s.name ≠ "" → s.selectedManifestoId ≠ "" →
      s.lastSubmission = some (submissionKey s.action s.selectedManifestoId s.name) →
      handleSubmitValidate s
        = ({ s with
              feedback := { text := "Este registro já foi enviado recentemente!", type := "error" } },
           none))
    ∧ (∀ a a' i i' n n' : String,
      (a ≠ a' ∧ i = i' ∧ n = n') ∨ (a = a' ∧ i ≠ i' ∧ n = n') ∨ (a = a' ∧ i = i' ∧ n ≠ n') →
      submissionKey a i n ≠ submissionKey a' i' n')
    ∧ (∀ s : AppState,
      (s.action = "Finalizar Puxe"
        ∨ s.action = "Iniciar Puxe"
            ∧ (s.namesList = [] ∨ ∃ n ∈ s.namesList, jsToLower n = jsToLower s.name)) →
      s.name ≠ "" → s.selectedManifestoId ≠ "" →
      s.lastSubmission ≠ some (submissionKey s.action s.selectedManifestoId s.name) →
      handleSubmitValidate s
        = ({ s with feedback := { text := "", type := "" } },
           some (submissionKey s.action s.selectedManifestoId s.name))) := by
  refine ⟨?_, ?_, ?_, ?_⟩
  · intro s1 s2 h1 h2 h3
    rw [h1, h2, h3]
  · intro s hact hn hi hdup
    rcases hact with ha | ⟨ha, hlist⟩
    · simp [handleSubmitValidate, handleSubmitGate, ha, hn, hi, hdup]
    · rcases hlist with hnil | ⟨n, hmem, hlow⟩
      · simp [handleSubmitValidate, handleSubmitGate, ha, hn, hi, hnil, hdup]
      · have hany : (s.namesList.any fun m => jsToLower m == jsToLower s.name) = true :=
          List.any_eq_true.2 ⟨n, hmem, beq_iff_eq.2 hlow⟩
        simp [handleSubmitValidate, handleSubmitGate, ha, hn, hi, hany, hdup]
  · rintro a a' i i' n n' (⟨ha, rfl, rfl⟩ | ⟨rfl, hi, rfl⟩ | ⟨rfl, rfl, hn⟩) hkey
    · exact ha (submissionKey_inj_action a a' i n hkey)
    · exact hi (submissionKey_inj_id a i i' n hkey)
    · exact hn (submissionKey_inj_name a i n n' hkey)
  · intro s hact hn hi hdup
    rcases hact with ha | ⟨ha, hlist⟩
    · rw [ha] at hdup
      simp [handleSubmitValidate, handleSubmitGate, ha, hn, hi, hdup]
    · rw [ha] at hdup
      rcases hlist with hnil | ⟨n, hmem, hlow⟩
      · simp [handleSubmitValidate, handleSubmitGate, ha, hn, hi, hnil, hdup]
      · have hany : (s.namesList.any fun m => jsToLower m == jsToLower s.name) = true :=
          List.any_eq_true.2 ⟨n, hmem, beq_iff_eq.2 hlow⟩
        simp [handleSubmitValidate, handleSubmitGate, ha, hn, hi, hany, hdup]

/-- C6 witness: conjunct two applied at a concrete state — re-submitting
the same (action, id, name) triple right after a success (the stored
fingerprint equals the current one) is rejected as a duplicate. -/
theorem C6_duplicate_fingerprint_witness :
    handleSubmitValidate
        { action := "Finalizar Puxe", name := "Maria", selectedManifestoId := "M1"
          namesList := [], manifestosForEmployee := ["M1"]
          lastSubmission := some (submissionKey "Finalizar Puxe" "M1" "Maria")
          feedback := { text := "", type := "" } }
      = ({ action := "Finalizar Puxe", name := "Maria", selectedManifestoId := "M1"
           namesList := [], manifestosForEmployee := ["M1"]
           lastSubmission := some (submissionKey "Finalizar Puxe" "M1" "Maria")
           feedback := { text := "Este registro já foi enviado recentemente!", type := "error" } },
         none) :=
  C6_duplicate_fingerprint.2.1 _ (Or.inl rfl) (by decide) (by decide) rfl

/-- C10: when the submit operation reports failure, the result callback
of `handleSubmit` changes only the feedback (to the error message) —
`lastSubmission`, `name`, `selectedManifestoId` and
`manifestosForEmployee` are all left as they were; therefore a state that
validated and proceeded before the failed call validates and proceeds
identically afterwards (the duplicate guard does not fire); and the
stored fingerprint can change only on a successful submission. -/
theorem C10_failure_keeps_state :
    (∀ (s : AppState) (key : String) (r : SubmitResult), r.success = false →
      handleSubmitResult s key r
        = { s with feedback := { text := r.message, type := "error" } })
    ∧ (∀ (s : AppState) (key : String) (r : SubmitResult), r.success = false →
      (handleSubmitResult s key r).lastSubmission = s.lastSubmission
      ∧ (handleSubmitResult s key r).name = s.name
      ∧ (handleSubmitResult s key r).selectedManifestoId = s.selectedManifestoId
      ∧ (handleSubmitResult s key r).manifestosForEmployee = s.manifestosForEmployee)
    ∧ (∀ (s : AppState) (key : String) (r : SubmitResult), r.success = false →
      ∀ k2 : String,
      handleSubmitValidate s = ({ s with feedback := { text := "", type := "" } }, some k2) →
      handleSubmitValidate (handleSubmitResult s key r)
        = ({ handleSubmitResult s key r with feedback := { text := "", type := "" } }, some k2))
    ∧ (∀ (s : AppState) (key : String) (r : SubmitResult),
      (handleSubmitResult s key r).lastSubmission ≠ s.lastSubmission → r.success = true) := by
  have hres : ∀ (s : AppState) (key : String) (r : SubmitResult), r.success = false →
      handleSubmitResult s key r
        = { s with feedback := { text := r.message, type := "error" } } := by
    intro s key r h
    simp [handleSubmitResult, h]
  have hgatefb : ∀ (s : AppState) (fb : Feedback),
      handleSubmitGate { s with feedback := fb } = handleSubmitGate s := fun _ _ => rfl
  refine ⟨hres, ?_, ?_, ?_⟩
  · intro s key r h
    rw [hres s key r h]
    exact ⟨rfl, rfl, rfl, rfl⟩
  · intro s key r h k2 hv
    have hg : handleSubmitGate s = SubmitGate.proceed k2 := by
      rcases hgt : handleSubmitGate s with _ | fb | k
      · rw [handleSubmitValidate, hgt] at hv
        simp at hv
      · rw [handleSubmitValidate, hgt] at hv
        simp at hv
      · rw [handleSubmitValidate, hgt] at hv
        simp only [Prod.mk.injEq, Option.some.injEq] at hv
        rw [hv.2]
    rw [hres s key r h]
    rw [handleSubmitValidate, hgatefb s { text := r.message, type := "error" }, hg]
  · intro s key r h
    rcases hr : r.success with _ | _
    · exact absurd (by rw [hres s key r hr]) h
    · rfl

/-- C10 witness: conjunct one applied at a concrete state — after a
failed submit the only change is the error feedback; fingerprint, name,
id and the per-employee list are untouched. -/
theorem C10_failure_keeps_state_witness :
    handleSubmitResult
        { action := "Iniciar Puxe", name := "Ana", selectedManifestoId := "M1"
          namesList := ["ana", "BEN"], manifestosForEmployee := []
          lastSubmission := none, feedback := { text := "", type := "" } }
        (submissionKey "Iniciar Puxe" "M1" "Ana")
        { success := false, message := "Erro ao processar: boom" }
      = { action := "Iniciar Puxe", name := "Ana", selectedManifestoId := "M1"
          namesList := ["ana", "BEN"], manifestosForEmployee := []
          lastSubmission := none
          feedback := { text := "Erro ao processar: boom", type := "error" } } :=
  C10_failure_keeps_state.1 _ _ _ rfl
